import Mathlib

/-!
# Verification of the Fatebound game engine

Shallow embedding of the Fatebound multiplayer elimination game: the phase/turn
state machine of the orchestration routes (`action`, `letter`, the phrase-guess
handler, `continue`, `bot-action`, `join`, `add-bot`) and the resilient
scenario-generation adapters (`lib/gameStore.ts` and the `continue` route).

JavaScript numbers that the code adds and subtracts (`lives`, `score`) are
modelled as `Int`; strings are Lean `String` (character lists); a JS `Set`
(`revealedLetters`) is modelled as a duplicate-free insertion-ordered list;
`Math.random()`-driven choices take an explicit `Nat` parameter `r` and select
by `r % pool.length`, matching `Math.floor(Math.random() * pool.length)`.
An operation that returns an HTTP error before calling `setGame` is modelled
as `Except.error`; the store keeps the old state in that case (`afterOp`).
-/

namespace Fatebound

/-- Game phases, from the `phase` string field of GameState. -/
inductive Phase where
  | lobby
  | playing
  | letterSelection
  | waitingContinue
  | gameOver
deriving DecidableEq, Repr

/-- A player record, from `types/game` as constructed in `join`/`add-bot`. -/
structure Player where
  id : String
  name : String
  isAlive : Bool
  lives : Int
  score : Int
  isBot : Bool
deriving DecidableEq, Repr

/-- The puzzle sub-state: hidden phrase, category and the set of revealed
letters (a JS `Set`, modelled as an insertion-ordered duplicate-free list). -/
structure Puzzle where
  phrase : String
  category : String
  revealedLetters : List Char
deriving DecidableEq, Repr

/-- The aggregate GameState stored per game id. `selectedLetters` is the
ordered log of every guessed letter used by the letter route revision that
rejects duplicate guesses. -/
structure GameState where
  players : List Player
  currentPlayerIndex : Nat
  phase : Phase
  puzzle : Puzzle
  currentScenario : String
  scenarioHistory : List String
  roundNumber : Nat
  winner : Option String
  selectedLetters : List Char
deriving DecidableEq, Repr

/-- Caller-facing rejections of the orchestration routes (each corresponds to
an early `NextResponse.json({ error: ... })` return issued before `setGame`). -/
inductive GameErr where
  | notYourTurn
  | noCurrentPlayer
  | duplicateGuess
  | gameAlreadyStarted
  | noBotNames
  | notABot
deriving DecidableEq, Repr

/-! ## Character and string helpers (ASCII model of the JS string methods) -/

/-- ASCII model of `toLowerCase` on one character. -/
def lowerC (c : Char) : Char :=
  if 'A' ≤ c ∧ c ≤ 'Z' then Char.ofNat (c.toNat + 32) else c

/-- ASCII model of `toUpperCase` on one character. -/
def upperC (c : Char) : Char :=
  if 'a' ≤ c ∧ c ≤ 'z' then Char.ofNat (c.toNat - 32) else c

/-- `s.toLowerCase()` on the character list. -/
def lowerL (l : List Char) : List Char := l.map lowerC

/-- `s.toUpperCase()`. -/
def upperStr (s : String) : String := ⟨s.data.map upperC⟩

/-- The whitespace characters relevant to `\s` / `.trim()` in this model. -/
def isWsC (c : Char) : Bool := c = ' ' ∨ c = '\t' ∨ c = '\n' ∨ c = '\r'

/-- The sentence-final punctuation class `[.?!"']` of the adapter's regexes. -/
def isPunctC (c : Char) : Bool := c = '.' ∨ c = '?' ∨ c = '!' ∨ c = '"' ∨ c = '\''

/-- Drop the longest suffix whose characters satisfy `p`. -/
def dropRightWhileL (p : Char → Bool) (l : List Char) : List Char :=
  (l.reverse.dropWhile p).reverse

/-- `s.trim()`. -/
def trimL (l : List Char) : List Char :=
  dropRightWhileL isWsC (l.dropWhile isWsC)

/-- `s.trim()` at the `String` level. -/
def strTrim (s : String) : String := ⟨trimL s.data⟩

/-- Case-insensitive `endsWith` on character lists. -/
def endsWithCIL (l pat : List Char) : Bool := (lowerL pat).isSuffixOf (lowerL l)

/-- Case-insensitive `endsWith` on strings. -/
def endsWithCI (s pat : String) : Bool := endsWithCIL s.data pat.data

/-! ## The scenario-generation adapters

`lib/gameStore.ts` (lines 97-214) holds the centralized adapter: prompt the
text port, salvage the reply into exactly two sentences ending in
"What do you do?", and fall back to a curated pool on any failure.  The
`continue` route (lines 4-168) carries an older adapter that returns the raw
model text unvalidated and falls back to a three-entry emergency pool on any
error.  The behaviour of the injected text-generation port is an explicit
argument `res : GenResult`; `Math.random()`-driven pool picks take `r`. -/

/-- Outcome of one call to the text-generation port, as the routes
distinguish them: a thrown `fetch` error, a non-OK status, a body missing
`candidates[0].content`, a reply cut off at the `MAX_TOKENS` finish reason
(still carrying its partial text), missing `parts`, or a completed reply
carrying text (the joined `parts[i].text`, possibly empty). -/
inductive GenResult where
  | transportError
  | httpError
  | badStructure
  | truncated (raw : String)
  | missingParts
  | text (raw : String)
deriving DecidableEq, Repr

/-- `[ \t]+` → `" "`. -/
def collapseST (l : List Char) : List Char :=
  (l.foldl
    (fun (st : List Char × Bool) c =>
      if c = ' ' ∨ c = '\t' then (if st.2 then st.1 else ' ' :: st.1, true)
      else (c :: st.1, false))
    ([], false)).1.reverse

/-- `\n{3,}` → `"\n\n"`. -/
def collapseNL (l : List Char) : List Char :=
  let fin := l.foldl
    (fun (st : List Char × Nat) c =>
      if c = '\n' then (st.1, st.2 + 1)
      else (c :: (List.replicate (min st.2 2) '\n' ++ st.1), 0))
    ([], 0)
  (List.replicate (min fin.2 2) '\n' ++ fin.1).reverse

/-- The adapter's `clean`: strip `\r`, collapse space/tab runs, collapse
3+ newlines, trim. -/
def cleanL (l : List Char) : List Char :=
  trimL (collapseNL (collapseST (l.filter (· ≠ '\r'))))

/-- Does this character end a sentence for `split(/(?<=[.!?])\s+/)`? -/
def isSentEnd (c : Char) : Bool := c = '.' ∨ c = '!' ∨ c = '?'

/-- `t.split(/(?<=[.!?])\s+/).filter(Boolean)`: cut at whitespace runs that
directly follow `.`, `!` or `?`, consuming the run, and drop empty pieces.
The fold state is (finished sentences reversed, current sentence reversed,
inside-delimiter flag). -/
def splitSentencesL (l : List Char) : List (List Char) :=
  let fin := l.foldl
    (fun (st : List (List Char) × List Char × Bool) c =>
      let (done, cur, inDelim) := st
      if inDelim && isWsC c then (done, cur, true)
      else if isWsC c && (match cur with | p :: _ => isSentEnd p | [] => false) then
        (cur.reverse :: done, [], true)
      else (done, c :: cur, false))
    ([], [], false)
  let pieces := (if fin.2.1 = [] then fin.1 else fin.2.1.reverse :: fin.1).reverse
  pieces.filter (· ≠ [])

/-- Strip the end-anchored `[.?!"']*\s*$`: the trailing whitespace run and the
punctuation run just before it.  `replace(/[.?!"']*\s*$/, repl)` equals
`stripEndPW s ++ repl` because the regex's leftmost match is exactly that
suffix. -/
def stripEndPW (l : List Char) : List Char :=
  dropRightWhileL isPunctC (dropRightWhileL isWsC l)

/-- The question every scenario must end with. -/
def wdydL : List Char := "what do you do".data

/-- `appendWhatDoYouDoOnce` (lib/gameStore.ts lines 131-138): if the cleaned
text already ends in "what do you do" (case-insensitively, ignoring trailing
punctuation/whitespace) normalize the ending to `?`, otherwise append the
question. -/
def appendOnceL (l : List Char) : List Char :=
  let c := cleanL l
  if endsWithCIL (stripEndPW c) wdydL then stripEndPW c ++ ['?']
  else stripEndPW c ++ ". What do you do?".data

/-- `ensureEnding` (lib/gameStore.ts lines 140-148): clean, keep the first two
sentences, require at least two, and enforce the ending. -/
def ensureEndingL (l : List Char) : List Char :=
  let trimmed := cleanL l
  let sentences := splitSentencesL trimmed
  if sentences.length < 2 then []
  else appendOnceL (List.intercalate [' '] (sentences.take 2))

/-- `ensureEnding` at the `String` level. -/
def ensureEnding (s : String) : String := ⟨ensureEndingL s.data⟩

/-- The eight curated fallback scenarios shared by the centralized adapter and
the continue route's no-API-key branch. -/
def fallbackScenarios : List String :=
  ["A merchant's wagon wheel snaps ahead of you. Bandits emerge from the trees, circling the stranded traveler. What do you do?",
   "Glowing mushrooms illuminate a fork in the cave. Left tunnel drips with acid, right tunnel crawls with giant centipedes. What do you do?",
   "An old woman offers you a steaming bowl of stew. Your stomach growls, but the bones in her firepit look suspiciously human-sized. What do you do?",
   "Your torch reveals a room filled with golden statues. Each one depicts someone in mid-scream. The door slams shut behind you. What do you do?",
   "A child cries from a nearby well. As you approach, you notice claw marks on the stone rim and the crying echoes strangely. What do you do?",
   "Fog rolls in thick and cold. Through it, you hear your companion's voice calling for help from three different directions. What do you do?",
   "A locked chest sits in the center of the chamber. Through the keyhole, you see it's full of gems, but also ticking ominously. What do you do?",
   "Armed soldiers question villagers ahead. One villager catches your eye and mouths 'run' before a soldier notices. What do you do?"]

/-- The three emergency scenarios of the continue route's catch block. -/
def emergencyScenarios : List String :=
  ["A wounded wolf limps toward you, blood trailing behind it. Its eyes show pain, not aggression. What do you do?",
   "The bridge ahead sways dangerously. You see fresh footprints crossing it, but also broken planks. What do you do?",
   "A traveler offers to share their campfire and food. Their smile is warm, but their eyes keep darting to your coin purse. What do you do?"]

/-- `pickFallback`: filter out recently shown scenarios, use the full pool if
that empties it, pick at `Math.floor(Math.random() * choices.length)`. -/
def pickFallback (recent : List String) (r : Nat) : String :=
  let available := fallbackScenarios.filter (fun s => ¬recent.contains s)
  let choices := if available.length > 0 then available else fallbackScenarios
  choices.getD (r % choices.length) ""

/-- The centralized scenario adapter, `generateScenario` of lib/gameStore.ts
lines 97-214.  A missing API key, a thrown fetch, or a non-OK response lands
in `pickFallback`; any reply that carries text — the adapter never inspects
`finishReason`, so a MAX_TOKENS-truncated reply is treated exactly like a
completed one — is salvaged by `ensureEnding` and rejected (to the fallback
pool) only when the salvage comes out empty or shorter than 30 characters.
A body whose optional chaining finds no parts yields the empty joined text,
which `ensureEnding` maps to `""` and hence to the fallback pool.  The
surrounding `try`/`catch` means no port behaviour escapes as an exception,
which the embedding reflects by being a total function. -/
def generateScenarioStore (hasKey : Bool) (res : GenResult) (recent : List String) (r : Nat) :
    String :=
  if ¬hasKey then pickFallback recent r
  else
    match res with
    | .text raw | .truncated raw =>
      let scenario := ensureEnding (strTrim raw)
      if scenario = "" ∨ scenario.length < 30 then pickFallback recent r else scenario
    | _ => pickFallback recent r

/-- The continue route's scenario adapter, `generateScenario` of
src/app/api/game/continue/route.ts lines 4-168.  Without an API key it uses
the same eight-entry fallback pool; unlike the gameStore adapter it checks
`finishReason` and throws on MAX_TOKENS, so a truncated reply — like any
transport or shape failure — is caught and resolved to the three-entry
emergency pool; but a completed reply is returned trimmed, without running
any validator. -/
def generateScenarioContinue (hasKey : Bool) (res : GenResult) (recent : List String) (r : Nat) :
    String :=
  if ¬hasKey then pickFallback recent r
  else
    match res with
    | .text raw => strTrim raw
    | _ => emergencyScenarios.getD (r % emergencyScenarios.length) ""

/-! ## Game-machine helpers -/

/-- `[...players].sort((a, b) => b.score - a.score)[0]`: the stable descending
sort by score puts the first player holding the maximal score at index 0. -/
def maxScoreFirst : List Player → Option Player
  | [] => none
  | p :: rest => some (rest.foldl (fun best q => if best.score < q.score then q else best) p)

/-- `submitAction` (src/app/api/game/action/route.ts, POST): the current
player acts; the judged verdict `success` is the outcome of `evaluateAction`. -/
def submitAction (g : GameState) (pid : String) (success : Bool) :
    Except GameErr GameState :=
  match g.players[g.currentPlayerIndex]? with
  | none => .error .noCurrentPlayer
  | some cp =>
    if cp.id ≠ pid then .error .notYourTurn
    else if success then
      .ok { g with
              players := g.players.set g.currentPlayerIndex { cp with score := cp.score + 10 },
              phase := .letterSelection }
    else
      let cp' : Player := { cp with
                              lives := cp.lives - 1,
                              isAlive := if cp.lives - 1 ≤ 0 then false else cp.isAlive }
      let ps' := g.players.set g.currentPlayerIndex cp'
      let alivePlayers := ps'.filter (·.isAlive)
      if alivePlayers.length = 0 then
        .ok { g with players := ps', phase := .gameOver,
                     winner := (maxScoreFirst ps').map (·.id) }
      else if alivePlayers.length = 1 then
        .ok { g with players := ps', phase := .gameOver,
                     winner := (alivePlayers[0]?).map (·.id) }
      else
        .ok { g with players := ps', phase := .waitingContinue }

/-- The state left in the store after an operation: an `ok` result was saved
by `setGame`, an error return never reached `setGame`. -/
def afterOp (g : GameState) : Except GameErr GameState → GameState
  | .ok g' => g'
  | .error _ => g

/-- Number of alive players, `players.filter(p => p.isAlive).length`. -/
def aliveCount (ps : List Player) : Nat := (ps.filter (·.isAlive)).length

/-- `players[i].isAlive` guarded by existence of the entry. -/
def aliveAt (ps : List Player) (i : Nat) : Bool :=
  match ps[i]? with
  | some p => p.isAlive
  | none => false

/-- The circular scan `while (!players[nextIndex].isAlive) nextIndex =
(nextIndex + 1) % players.length`, fuelled: the routes only run the loop when
at least two players are alive, in which case `players.length` steps always
suffice, so the fuelled scan coincides with the JS `while` loop there. -/
def findAliveAux (ps : List Player) : Nat → Nat → Nat
  | 0, s => s
  | fuel + 1, s =>
    if aliveAt ps s then s else findAliveAux ps fuel ((s + 1) % ps.length)

/-- First alive index at or cyclically after `start`. -/
def nextAliveIdx (ps : List Player) (start : Nat) : Nat :=
  findAliveAux ps ps.length start

/-- `scenarioHistory.push(current); if (length > 5) shift()` — the ring buffer
of the last five scenarios. -/
def pushCap5 (hist : List String) (s : String) : List String :=
  let h := hist ++ [s]
  if h.length > 5 then h.drop 1 else h

/-- The shared turn-advancement subroutine `moveToNextPlayer` of the letter
route (src/app/api/game/letter/route.ts lines 403-453); the freshly generated
scenario text is passed in as `newScenario` (the generation adapter is modelled
separately). -/
def moveToNextPlayer (g : GameState) (newScenario : String) : GameState :=
  let alivePlayers := g.players.filter (·.isAlive)
  if alivePlayers.length = 0 then
    { g with phase := .gameOver, winner := (maxScoreFirst g.players).map (·.id) }
  else if alivePlayers.length = 1 then
    { g with phase := .gameOver, winner := (alivePlayers[0]?).map (·.id) }
  else
    { g with
        currentPlayerIndex := nextAliveIdx g.players ((g.currentPlayerIndex + 1) % g.players.length),
        phase := .playing,
        roundNumber := g.roundNumber + 1,
        scenarioHistory := pushCap5 g.scenarioHistory g.currentScenario,
        currentScenario := newScenario }

/-- The `continue` route POST (src/app/api/game/continue/route.ts lines
170-248) inlines exactly the `moveToNextPlayer` logic above under an always-ok
outcome. -/
def continueOp (g : GameState) (newScenario : String) : GameState :=
  moveToNextPlayer g newScenario

/-- JS `Set.add`: append if absent, keeping insertion order. -/
def insertChar (l : List Char) (c : Char) : List Char :=
  if l.contains c then l else l ++ [c]

/-- `/[A-Z]/.test(c)`. -/
def isUpperAlpha (c : Char) : Bool := 'A' ≤ c ∧ c ≤ 'Z'

/-- Insertion-order deduplication, modelling iteration over `new Set(chars)`. -/
def dedupChars (l : List Char) : List Char :=
  l.foldl (fun acc c => if acc.contains c then acc else acc ++ [c]) []

/-- The distinct `[A-Z]` characters of the uppercased phrase, as iterated by
`new Set(phrase.toUpperCase().split("").filter(c => /[A-Z]/.test(c)))`. -/
def puzzleLetters (phrase : String) : List Char :=
  dedupChars ((upperStr phrase).data.filter isUpperAlpha)

/-- `pickLetter` — the letter-route POST of the revision with the
`selectedLetters` duplicate-guess log (src/unnamed/part_014). The picked
letter is modelled as a `Char`; `phrase.match(new RegExp(upperLetter, "g"))`
counts the occurrences of the (alphabetic) uppercased letter in the raw
phrase. `newScenario` is the text produced by the generation adapter inside
`moveToNextPlayer`. -/
def pickLetterOp (g : GameState) (pid : String) (letter : Char) (newScenario : String) :
    Except GameErr GameState :=
  match g.players[g.currentPlayerIndex]? with
  | none => .error .noCurrentPlayer
  | some cp =>
    if cp.id ≠ pid then .error .notYourTurn
    else
      let u := upperC letter
      if g.selectedLetters.contains u then .error .duplicateGuess
      else
        let g₁ := { g with selectedLetters := g.selectedLetters ++ [u] }
        if (upperStr g.puzzle.phrase).data.contains u then
          let count := g.puzzle.phrase.data.count u
          let cp' : Player := { cp with score := cp.score + 5 * count }
          let revealed' := insertChar g.puzzle.revealedLetters u
          let g₂ := { g₁ with
                        players := g₁.players.set g₁.currentPlayerIndex cp',
                        puzzle := { g₁.puzzle with revealedLetters := revealed' } }
          if (puzzleLetters g.puzzle.phrase).all (fun c => revealed'.contains c) then
            .ok { g₂ with
                    players := g₁.players.set g₁.currentPlayerIndex
                                 { cp' with score := cp'.score + 100 },
                    phase := .gameOver,
                    winner := some cp.id }
          else
            .ok (moveToNextPlayer g₂ newScenario)
        else
          .ok (moveToNextPlayer g₁ newScenario)

/-- `guessPhrase` — the full-phrase guess POST (src/app/api/game/add-bot/
route.ts lines 182-253): case-insensitive exact match via
`phrase.toUpperCase()` against `guess.toUpperCase().trim()`; a wrong guess
eliminates the guesser and advances the turn inline (without touching
`roundNumber` or the scenario). -/
def guessPhraseOp (g : GameState) (pid : String) (guess : String) :
    Except GameErr GameState :=
  match g.players[g.currentPlayerIndex]? with
  | none => .error .noCurrentPlayer
  | some cp =>
    if cp.id ≠ pid then .error .notYourTurn
    else if strTrim (upperStr guess) = upperStr g.puzzle.phrase then
      .ok { g with
              players := g.players.set g.currentPlayerIndex { cp with score := cp.score + 100 },
              phase := .gameOver,
              winner := some cp.id }
    else
      let ps' := g.players.set g.currentPlayerIndex { cp with isAlive := false }
      let alivePlayers := ps'.filter (·.isAlive)
      if alivePlayers.length = 0 then
        .ok { g with players := ps', phase := .gameOver,
                     winner := (maxScoreFirst ps').map (·.id) }
      else if alivePlayers.length = 1 then
        .ok { g with players := ps', phase := .gameOver,
                     winner := (alivePlayers[0]?).map (·.id) }
      else
        .ok { g with players := ps',
                     currentPlayerIndex := nextAliveIdx ps' ((g.currentPlayerIndex + 1) % ps'.length),
                     phase := .playing }

/-- `bot-action` POST (src/app/api/game/bot-action/route.ts lines 26-156):
requires the current player to be a bot, then applies the judged verdict; a
failure just moves to `waiting-continue` without the end-condition checks. -/
def botActionOp (g : GameState) (success : Bool) : Except GameErr GameState :=
  match g.players[g.currentPlayerIndex]? with
  | none => .error .notABot
  | some cp =>
    if ¬cp.isBot then .error .notABot
    else if success then
      .ok { g with
              players := g.players.set g.currentPlayerIndex { cp with score := cp.score + 10 },
              phase := .letterSelection }
    else
      .ok { g with
              players := g.players.set g.currentPlayerIndex
                { cp with
                    lives := cp.lives - 1,
                    isAlive := if cp.lives - 1 ≤ 0 then false else cp.isAlive },
              phase := .waitingContinue }

/-- `joinGame` POST (src/app/api/game/join/route.ts lines 9-53): only in the
lobby; appends a fresh human player with 3 lives. `newPid` models the random
`generatePlayerId()`. -/
def joinOp (g : GameState) (playerName : String) (newPid : String) :
    Except GameErr GameState :=
  if g.phase ≠ .lobby then .error .gameAlreadyStarted
  else .ok { g with players := g.players ++
              [{ id := newPid, name := playerName, isAlive := true,
                 lives := 3, score := 0, isBot := false }] }

/-- The eight curated bot names of the add-bot route. -/
def botNames : List String :=
  ["Sir Caution", "Lady Reckless", "The Thinker", "Captain Bold",
   "Wise Sage", "Daring Knight", "Clever Fox", "Brave Bear"]

/-- `addBot` POST (src/app/api/game/add-bot/route.ts lines 20-75): only in the
lobby; picks an unused curated name at random (`r` models `Math.random()`),
failing once none is available. -/
def addBotOp (g : GameState) (newPid : String) (r : Nat) :
    Except GameErr GameState :=
  if g.phase ≠ .lobby then .error .gameAlreadyStarted
  else
    let usedNames := g.players.map (·.name)
    let availableNames := botNames.filter (fun n => !usedNames.contains n)
    if availableNames.length = 0 then .error .noBotNames
    else .ok { g with players := g.players ++
                [{ id := newPid,
                   name := availableNames.getD (r % availableNames.length) "",
                   isAlive := true, lives := 3, score := 0, isBot := true }] }

/-- What C2 requires of a success verdict: exactly +10 score for the current
player, nothing else about the player changes, and the phase becomes
`letter-selection`. -/
def actionSuccessSpec (g : GameState) (cp : Player) (pid : String) : Prop :=
  ∃ g', submitAction g pid true = .ok g'
    ∧ g'.phase = Phase.letterSelection
    ∧ ∃ p', g'.players[g.currentPlayerIndex]? = some p'
        ∧ p'.score = cp.score + 10 ∧ p'.lives = cp.lives ∧ p'.isAlive = cp.isAlive

/-- What C2 requires of a failure verdict: exactly -1 life, elimination exactly
at 0 lives, then the end conditions. -/
def actionFailureSpec (g : GameState) (cp : Player) (pid : String) : Prop :=
  ∃ g', submitAction g pid false = .ok g'
    ∧ (∃ p', g'.players[g.currentPlayerIndex]? = some p'
        ∧ p'.lives = cp.lives - 1 ∧ p'.score = cp.score
        ∧ (p'.isAlive = false ↔ p'.lives = 0))
    ∧ (aliveCount g'.players = 0 → g'.phase = Phase.gameOver
        ∧ ∃ w, w ∈ g'.players ∧ g'.winner = some w.id
            ∧ ∀ q ∈ g'.players, q.score ≤ w.score)
    ∧ (aliveCount g'.players = 1 → g'.phase = Phase.gameOver
        ∧ ∃ w, w ∈ g'.players ∧ g'.winner = some w.id ∧ w.isAlive = true)
    ∧ (2 ≤ aliveCount g'.players → g'.phase = Phase.waitingContinue)

/-- What C4 requires of a correct full-phrase guess: +100 for the guesser,
guesser becomes the winner, phase `game-over`. -/
def guessMatchSpec (g : GameState) (cp : Player) (pid guess : String) : Prop :=
  ∃ g', guessPhraseOp g pid guess = .ok g'
    ∧ g'.phase = Phase.gameOver ∧ g'.winner = some cp.id
    ∧ ∃ p', g'.players[g.currentPlayerIndex]? = some p' ∧ p'.score = cp.score + 100

/-- What C4 requires of a wrong full-phrase guess: the guesser is eliminated,
the end conditions are evaluated, otherwise the turn advances to the next
alive player and the phase becomes `playing`. -/
def guessMismatchSpec (g : GameState) (cp : Player) (pid guess : String) : Prop :=
  ∃ g', guessPhraseOp g pid guess = .ok g'
    ∧ (∃ p', g'.players[g.currentPlayerIndex]? = some p'
        ∧ p'.isAlive = false ∧ p'.lives = cp.lives ∧ p'.score = cp.score)
    ∧ (aliveCount g'.players = 0 → g'.phase = Phase.gameOver
        ∧ ∃ w, w ∈ g'.players ∧ g'.winner = some w.id
            ∧ ∀ q ∈ g'.players, q.score ≤ w.score)
    ∧ (aliveCount g'.players = 1 → g'.phase = Phase.gameOver
        ∧ ∃ w, w ∈ g'.players ∧ g'.winner = some w.id ∧ w.isAlive = true)
    ∧ (2 ≤ aliveCount g'.players → g'.phase = Phase.playing
        ∧ g'.currentPlayerIndex =
            nextAliveIdx g'.players ((g.currentPlayerIndex + 1) % g'.players.length))

/-- The C8 elimination-monotonicity relation between the stored players list
before and after an operation: entries keep their position, `lives` never
grows, and a dead player never revives. -/
def playersMonotone (ps ps' : List Player) : Prop :=
  ∀ (i : Nat) (p : Player), ps[i]? = some p →
    ∃ p', ps'[i]? = some p'
      ∧ p'.lives ≤ p.lives ∧ (p.isAlive = false → p'.isAlive = false)

/-- What C5 requires after a fresh hit letter: the letter joins
`revealedLetters`, the score grows by exactly five per occurrence, and the
full-reveal bonus fires exactly when every distinct phrase letter is revealed
afterwards. -/
def pickLetterHitSpec (g : GameState) (cp : Player) (pid : String)
    (letter : Char) (ns : String) : Prop :=
  ∃ g', pickLetterOp g pid letter ns = .ok g'
    ∧ g'.puzzle.revealedLetters.contains (upperC letter) = true
    ∧ ∃ p', g'.players[g.currentPlayerIndex]? = some p'
      ∧ ((puzzleLetters g.puzzle.phrase).all
            (fun c => (insertChar g.puzzle.revealedLetters (upperC letter)).contains c) = true →
          p'.score = cp.score + 5 * g.puzzle.phrase.data.count (upperC letter) + 100
          ∧ g'.winner = some cp.id ∧ g'.phase = Phase.gameOver)
      ∧ ((puzzleLetters g.puzzle.phrase).all
            (fun c => (insertChar g.puzzle.revealedLetters (upperC letter)).contains c) = false →
          p'.score = cp.score + 5 * g.puzzle.phrase.data.count (upperC letter))

/-- Example human players and a two-player game in phase `playing`, player A
on turn with one life and the higher score, used to witness the claims. -/
def pA : Player :=
  { id := "pA", name := "A", isAlive := true, lives := 1, score := 50, isBot := false }

def pB : Player :=
  { id := "pB", name := "B", isAlive := true, lives := 3, score := 0, isBot := false }

def exPuzzle : Puzzle :=
  { phrase := "BEWARE OF THE DRAGON", category := "Monster Alert", revealedLetters := [] }

def gEx : GameState :=
  { players := [pA, pB], currentPlayerIndex := 0, phase := .playing,
    puzzle := exPuzzle, currentScenario := "A dragon blocks the path. What do you do?",
    scenarioHistory := [], roundNumber := 1, winner := none, selectedLetters := [] }

/-- A game in `letter-selection` with B (3 lives) on turn, then A. -/
def gEx9 : GameState :=
  { players := [pB, pA], currentPlayerIndex := 0, phase := .letterSelection,
    puzzle := exPuzzle, currentScenario := "A dragon blocks the path. What do you do?",
    scenarioHistory := [], roundNumber := 2, winner := none, selectedLetters := [] }

/-- A lobby in which every curated bot name is already taken. -/
def gFull : GameState :=
  { players := botNames.map (fun n =>
      { id := n, name := n, isAlive := true, lives := 3, score := 0, isBot := true }),
    currentPlayerIndex := 0, phase := .lobby, puzzle := exPuzzle,
    currentScenario := "", scenarioHistory := [], roundNumber := 0,
    winner := none, selectedLetters := [] }

/-- The letter-selection example game with the letter E already guessed. -/
def gDup : GameState := { gEx9 with selectedLetters := ['E'] }

/-! ## Lemmas about the scenario adapters -/

theorem lowerL_append (a b : List Char) : lowerL (a ++ b) = lowerL a ++ lowerL b :=
  List.map_append lowerC a b

theorem endsWithCIL_append_q {u : List Char} (h : endsWithCIL u wdydL = true) :
    endsWithCIL (u ++ ['?']) ("what do you do?".data) = true := by
  unfold endsWithCIL at h ⊢
  rw [List.isSuffixOf_iff_suffix] at h ⊢
  have hdecomp : lowerL ("what do you do?".data) = lowerL wdydL ++ ['?'] := by decide
  have hq : lowerL ['?'] = ['?'] := by decide
  have hu : lowerL (u ++ ['?']) = lowerL u ++ ['?'] := by
    rw [lowerL_append, hq]
  rw [hdecomp, hu]
  obtain ⟨t, ht⟩ := h
  exact ⟨t, by rw [← List.append_assoc, ht]⟩

theorem endsWithCIL_append_tail (u : List Char) :
    endsWithCIL (u ++ ". What do you do?".data) ("what do you do?".data) = true := by
  unfold endsWithCIL
  rw [List.isSuffixOf_iff_suffix]
  have hlit : lowerL (". What do you do?".data) = ". what do you do?".data := by decide
  have hu : lowerL (u ++ ". What do you do?".data) = lowerL u ++ ". what do you do?".data := by
    rw [lowerL_append, hlit]
  rw [hu]
  have h1 : lowerL ("what do you do?".data) <:+ ". what do you do?".data :=
    ⟨". ".data, by decide⟩
  exact h1.trans (List.suffix_append _ _)

/-- Every output of `appendWhatDoYouDoOnce` ends in "what do you do?" up to
letter case. -/
theorem appendOnceL_endsWith (l : List Char) :
    endsWithCIL (appendOnceL l) ("what do you do?".data) = true := by
  unfold appendOnceL
  dsimp only
  split
  · next h => exact endsWithCIL_append_q h
  · exact endsWithCIL_append_tail _

/-- `ensureEnding` either gives up (empty result) or produces text ending in
"what do you do?" up to letter case. -/
theorem ensureEndingL_cases (l : List Char) :
    ensureEndingL l = [] ∨ endsWithCIL (ensureEndingL l) ("what do you do?".data) = true := by
  unfold ensureEndingL
  dsimp only
  split
  · exact Or.inl rfl
  · exact Or.inr (appendOnceL_endsWith _)

theorem string_data_mk (l : List Char) : (String.mk l).data = l := rfl

theorem endsWithCI_def (s pat : String) :
    endsWithCI s pat = endsWithCIL s.data pat.data := rfl

theorem ensureEnding_def (s : String) :
    ensureEnding s = String.mk (ensureEndingL s.data) := rfl

/-- String-level form of `ensureEndingL_cases`. -/
theorem ensureEnding_valid (s : String) :
    ensureEnding s = "" ∨ endsWithCI (ensureEnding s) "what do you do?" = true := by
  rcases ensureEndingL_cases s.data with h | h
  · left
    rw [ensureEnding_def, h]
  · right
    rw [endsWithCI_def, ensureEnding_def, string_data_mk]
    exact h

theorem list_getD_mem {l : List String} (r : Nat) (h : l ≠ []) :
    l.getD (r % l.length) "" ∈ l := by
  have hlen : 0 < l.length := List.length_pos.mpr h
  have hlt : r % l.length < l.length := Nat.mod_lt _ hlen
  rw [List.getD_eq_getElem l "" hlt]
  exact List.getElem_mem hlt

/-- `pickFallback` always yields a member of the curated eight-entry pool. -/
theorem pickFallback_mem (recent : List String) (r : Nat) :
    pickFallback recent r ∈ fallbackScenarios := by
  unfold pickFallback
  dsimp only
  split
  · next h =>
    have hne : (fallbackScenarios.filter (fun s => ¬recent.contains s)) ≠ [] := by
      intro hnil
      rw [hnil] at h
      simp at h
    have := list_getD_mem r hne
    exact (List.mem_filter.mp this).1
  · exact list_getD_mem r (by decide)

set_option maxRecDepth 10000 in
theorem fallbackScenarios_valid :
    ∀ s ∈ fallbackScenarios, endsWithCI s "what do you do?" = true ∧ 30 ≤ s.length := by
  decide

set_option maxRecDepth 10000 in
theorem emergencyScenarios_valid :
    ∀ s ∈ emergencyScenarios, endsWithCI s "what do you do?" = true ∧ 30 ≤ s.length := by
  decide

/-- C1 counterexample: when the port replies with well-formed but arbitrary
text, the continue route's scenario adapter returns it trimmed and unvalidated,
so the returned value does not end in "What do you do?" (not even up to letter
case) — refuting the claim that every returned value satisfies the scenario
contract's hard validators. -/
theorem C1_counterexample :
    generateScenarioContinue true
        (GenResult.text "You sit by the campfire and rest.") [] 0
      = "You sit by the campfire and rest."
    ∧ endsWithCI "You sit by the campfire and rest." "What do you do?" = false := by
  constructor
  · rfl
  · decide

/-- C1 (amended): both scenario adapters are total — every port behaviour
(transport error, non-OK response, malformed or truncated body, arbitrary
text) resolves to a returned string, never an exception.  The centralized
`gameStore` adapter always returns text of length ≥ 30 ending in
"what do you do?" up to letter case, and — since it never inspects the
finish reason — it salvages a truncated reply exactly as it does a completed
one, reserving the static fallback pool for the behaviours that carry no
text (transport error, non-OK response, missing structure or parts) or whose
salvage fails.  The continue-route adapter resolves every non-text behaviour,
truncation included, to its emergency pool, but returns completed model text
as-is. -/
theorem C1_adapters_resolve :
    (∀ (k : Bool) (res : GenResult) (recent : List String) (r : Nat),
        endsWithCI (generateScenarioStore k res recent r) "what do you do?" = true
        ∧ 30 ≤ (generateScenarioStore k res recent r).length)
    ∧ (∀ (k : Bool) (raw : String) (recent : List String) (r : Nat),
        generateScenarioStore k (GenResult.truncated raw) recent r
          = generateScenarioStore k (GenResult.text raw) recent r)
    ∧ (∀ (res : GenResult) (recent : List String) (r : Nat),
        (∀ s, res ≠ GenResult.text s) → (∀ s, res ≠ GenResult.truncated s) →
          generateScenarioStore true res recent r ∈ fallbackScenarios)
    ∧ (∀ (res : GenResult) (recent : List String) (r : Nat),
        (∀ s, res ≠ GenResult.text s) →
          generateScenarioContinue true res recent r ∈ emergencyScenarios)
    ∧ (∀ (res : GenResult) (recent : List String) (r : Nat),
        generateScenarioContinue false res recent r ∈ fallbackScenarios) := by
  refine ⟨?_, ?_, ?_, ?_, ?_⟩
  · intro k res recent r
    have hfb : ∀ recent' r',
        endsWithCI (pickFallback recent' r') "what do you do?" = true
        ∧ 30 ≤ (pickFallback recent' r').length :=
      fun recent' r' => fallbackScenarios_valid _ (pickFallback_mem recent' r')
    unfold generateScenarioStore
    split
    · exact hfb recent r
    · match res with
      | .transportError | .httpError | .badStructure | .missingParts =>
        exact hfb recent r
      | .text raw | .truncated raw =>
        dsimp only
        split
        · exact hfb recent r
        · next hguard =>
          push_neg at hguard
          rcases ensureEnding_valid (strTrim raw) with h | h
          · exact absurd h hguard.1
          · exact ⟨h, hguard.2⟩
  · intro k raw recent r
    rfl
  · intro res recent r htext htrunc
    match res with
    | .transportError | .httpError | .badStructure | .missingParts =>
      exact pickFallback_mem recent r
    | .text raw => exact absurd rfl (htext raw)
    | .truncated raw => exact absurd rfl (htrunc raw)
  · intro res recent r htext
    have hcont : emergencyScenarios.getD (r % emergencyScenarios.length) ""
        ∈ emergencyScenarios := list_getD_mem r (by decide)
    match res with
    | .transportError | .httpError | .badStructure | .truncated _ | .missingParts =>
      exact hcont
    | .text raw => exact absurd rfl (htext raw)
  · intro res recent r
    exact pickFallback_mem recent r

/-- C1 witness: concrete instantiation of the fallback clauses at a transport
error. -/
theorem C1_adapters_resolve_witness :
    generateScenarioStore true GenResult.transportError [] 0 ∈ fallbackScenarios
    ∧ generateScenarioContinue true GenResult.transportError [] 0 ∈ emergencyScenarios :=
  ⟨C1_adapters_resolve.2.2.1 GenResult.transportError [] 0
      (fun _ h => GenResult.noConfusion h) (fun _ h => GenResult.noConfusion h),
   C1_adapters_resolve.2.2.2.1 GenResult.transportError [] 0
      (fun _ h => GenResult.noConfusion h)⟩

/-! ## Lemmas about the game machine -/

theorem foldl_maxScore_spec (rest : List Player) (p : Player) :
    (rest.foldl (fun best q => if best.score < q.score then q else best) p) ∈ p :: rest
    ∧ ∀ q ∈ p :: rest,
        q.score ≤ (rest.foldl (fun best q => if best.score < q.score then q else best) p).score := by
  induction rest generalizing p with
  | nil =>
    simp only [List.foldl_nil]
    refine ⟨List.mem_singleton_self p, ?_⟩
    intro q hq
    rw [List.mem_singleton] at hq
    rw [hq]
  | cons q rest ih =>
    rw [List.foldl_cons]
    obtain ⟨ihmem, ihbound⟩ := ih (if p.score < q.score then q else p)
    constructor
    · rcases List.mem_cons.mp ihmem with h | h
      · rw [h]
        split
        · exact List.mem_cons_of_mem _ (List.mem_cons_self _ _)
        · exact List.mem_cons_self _ _
      · exact List.mem_cons_of_mem _ (List.mem_cons_of_mem _ h)
    · intro x hx
      have hhead : (if p.score < q.score then q else p).score
          ≤ (rest.foldl (fun best q => if best.score < q.score then q else best)
              (if p.score < q.score then q else p)).score :=
        ihbound _ (List.mem_cons_self _ _)
      rcases List.mem_cons.mp hx with h | h
      · rw [h]
        refine le_trans ?_ hhead
        split
        · next hlt => exact le_of_lt hlt
        · exact le_refl _
      · rcases List.mem_cons.mp h with h' | h'
        · rw [h']
          refine le_trans ?_ hhead
          split
          · exact le_refl _
          · next hnlt => exact le_of_not_lt hnlt
        · exact ihbound _ (List.mem_cons_of_mem _ h')

/-- `[...ps].sort(desc score)[0]` yields a maximal-score member. -/
theorem maxScoreFirst_spec {ps : List Player} (h : ps ≠ []) :
    ∃ b, maxScoreFirst ps = some b ∧ b ∈ ps ∧ ∀ q ∈ ps, q.score ≤ b.score := by
  match ps, h with
  | p :: rest, _ =>
    obtain ⟨hmem, hbound⟩ := foldl_maxScore_spec rest p
    exact ⟨_, rfl, hmem, hbound⟩

theorem getElem?_set_self {ps : List Player} {i : Nat} {a : Player} (h : i < ps.length) :
    (ps.set i a)[i]? = some a := by
  rw [List.getElem?_set]
  simp [h]

theorem getElem?_set_ne {ps : List Player} {i j : Nat} {a : Player} (h : i ≠ j) :
    (ps.set i a)[j]? = ps[j]? := by
  rw [List.getElem?_set]
  simp [h]

theorem insertChar_contains_self (l : List Char) (c : Char) :
    (insertChar l c).contains c = true := by
  unfold insertChar
  split
  · next h => exact h
  · exact List.elem_eq_true_of_mem (List.mem_append_right l (List.mem_singleton_self c))

theorem moveToNextPlayer_players (g : GameState) (ns : String) :
    (moveToNextPlayer g ns).players = g.players := by
  unfold moveToNextPlayer
  dsimp only
  split
  · rfl
  · split
    · rfl
    · rfl

theorem moveToNextPlayer_puzzle (g : GameState) (ns : String) :
    (moveToNextPlayer g ns).puzzle = g.puzzle := by
  unfold moveToNextPlayer
  dsimp only
  split
  · rfl
  · split
    · rfl
    · rfl

/-! ## The claims -/

/-- C2: in phase `playing`, a success verdict adds exactly 10 to the current
player's score (lives and aliveness untouched) and moves to `letter-selection`;
a failure decrements the player's lives by exactly 1, the player is eliminated
exactly when the lives reach 0, and then the end conditions run: zero alive
players give game-over with a maximal-score winner, one alive player gives
game-over with that (alive) player as winner, otherwise the phase becomes
`waiting-continue`. -/
theorem C2_action_verdict (g : GameState) (pid : String) (cp : Player)
    (hphase : g.phase = Phase.playing)
    (hcur : g.players[g.currentPlayerIndex]? = some cp)
    (hid : cp.id = pid)
    (halive : cp.isAlive = true)
    (hlives : 1 ≤ cp.lives) :
    actionSuccessSpec g cp pid ∧ actionFailureSpec g cp pid := by
  unfold actionSuccessSpec actionFailureSpec
  subst hid
  have hlt : g.currentPlayerIndex < g.players.length :=
    (List.getElem?_eq_some.mp hcur).1
  constructor
  · have hok : submitAction g cp.id true = .ok { g with
        players := g.players.set g.currentPlayerIndex { cp with score := cp.score + 10 },
        phase := .letterSelection } := by
      unfold submitAction
      rw [hcur]
      simp
    exact ⟨_, hok, rfl, ⟨_, getElem?_set_self hlt, rfl, rfl, rfl⟩⟩
  · unfold submitAction
    rw [hcur]
    dsimp only
    rw [if_neg (by simp : ¬cp.id ≠ cp.id)]
    rw [if_neg (by simp : ¬(false = true))]
    set cp' : Player := ({ cp with lives := cp.lives - 1, isAlive := (if cp.lives - 1 ≤ 0 then false else cp.isAlive) } : Player) with hcp'
    set ps' := g.players.set g.currentPlayerIndex cp' with hps'
    have hplayer : ∃ p', ps'[g.currentPlayerIndex]? = some p'
        ∧ p'.lives = cp.lives - 1 ∧ p'.score = cp.score
        ∧ (p'.isAlive = false ↔ p'.lives = 0) := by
      refine ⟨cp', by rw [hps']; exact getElem?_set_self hlt, rfl, rfl, ?_⟩
      rw [hcp']
      dsimp only
      split
      · next hle =>
        simp only [true_iff]
        omega
      · next hgt =>
        rw [halive]
        simp only [Bool.true_eq_false, false_iff]
        omega
    have hne : ps' ≠ [] := by
      rw [hps']
      intro hnil
      have hlen := List.length_set g.players g.currentPlayerIndex cp'
      rw [hnil] at hlen
      simp at hlen
      omega
    by_cases h0 : (ps'.filter (·.isAlive)).length = 0
    · rw [if_pos h0]
      obtain ⟨b, hb, hbmem, hbound⟩ := maxScoreFirst_spec hne
      refine ⟨_, rfl, hplayer, ?_, ?_, ?_⟩
      · intro _
        exact ⟨rfl, b, hbmem, by dsimp only; rw [hb]; rfl, hbound⟩
      · intro hh
        unfold aliveCount at hh
        dsimp only at hh
        omega
      · intro hh
        unfold aliveCount at hh
        dsimp only at hh
        omega
    · rw [if_neg h0]
      by_cases h1 : (ps'.filter (·.isAlive)).length = 1
      · rw [if_pos h1]
        obtain ⟨a, ha⟩ := List.length_eq_one.mp h1
        have hamem : a ∈ ps' ∧ a.isAlive = true := by
          have hmem : a ∈ ps'.filter (·.isAlive) := by
            rw [ha]
            exact List.mem_singleton_self a
          exact List.mem_filter.mp hmem
        refine ⟨_, rfl, hplayer, ?_, ?_, ?_⟩
        · intro hh
          unfold aliveCount at hh
          dsimp only at hh
          omega
        · intro _
          refine ⟨rfl, a, hamem.1, ?_, hamem.2⟩
          dsimp only
          rw [ha]
          rfl
        · intro hh
          unfold aliveCount at hh
          dsimp only at hh
          omega
      · rw [if_neg h1]
        refine ⟨_, rfl, hplayer, ?_, ?_, ?_⟩
        · intro hh
          unfold aliveCount at hh
          dsimp only at hh
          omega
        · intro hh
          unfold aliveCount at hh
          dsimp only at hh
          omega
        · intro _
          rfl

/-- C2 witness: the spec's example — players A(lives=1, score 50) and
B(lives=3, score 0); a failed action by A eliminates A and ends the game with
B as winner despite A's higher score. -/
theorem C2_action_verdict_witness :
    (actionSuccessSpec gEx pA "pA" ∧ actionFailureSpec gEx pA "pA")
    ∧ submitAction gEx "pA" false =
        .ok { gEx with
                players := [{ pA with lives := 0, isAlive := false }, pB],
                phase := Phase.gameOver, winner := some "pB" } :=
  ⟨C2_action_verdict gEx "pA" pA rfl rfl rfl rfl (by decide), rfl⟩

/-- C6: `submitAction` with a playerId other than the current player's id
returns `NotYourTurn`, and the stored GameState is unchanged in every field
(the route returns before any mutation or `setGame`). -/
theorem C6_not_your_turn (g : GameState) (pid : String) (cp : Player) (success : Bool)
    (hcur : g.players[g.currentPlayerIndex]? = some cp)
    (hid : cp.id ≠ pid) :
    submitAction g pid success = .error GameErr.notYourTurn
    ∧ afterOp g (submitAction g pid success) = g := by
  have h : submitAction g pid success = .error GameErr.notYourTurn := by
    unfold submitAction
    rw [hcur]
    dsimp only
    rw [if_pos hid]
  refine ⟨h, ?_⟩
  rw [h]
  rfl

/-- C6 witness: player B acting out of turn in the example game. -/
theorem C6_not_your_turn_witness :
    submitAction gEx "pB" true = .error GameErr.notYourTurn
    ∧ afterOp gEx (submitAction gEx "pB" true) = gEx :=
  C6_not_your_turn gEx "pB" pA true rfl (by decide)

/-- C4: a full-phrase guess by the current player — a case-insensitive exact
match on the normalized phrase adds exactly 100 to the guesser's score, sets
the guesser as winner and moves to `game-over`; a mismatch eliminates the
guesser, evaluates the end conditions, and otherwise advances the turn and
moves to `playing`. -/
theorem C4_guess_phrase (g : GameState) (pid guess : String) (cp : Player)
    (hphase : g.phase = Phase.letterSelection)
    (hcur : g.players[g.currentPlayerIndex]? = some cp)
    (hid : cp.id = pid) :
    (strTrim (upperStr guess) = upperStr g.puzzle.phrase → guessMatchSpec g cp pid guess)
    ∧ (strTrim (upperStr guess) ≠ upperStr g.puzzle.phrase → guessMismatchSpec g cp pid guess) := by
  subst hid
  have hlt : g.currentPlayerIndex < g.players.length :=
    (List.getElem?_eq_some.mp hcur).1
  constructor
  · intro hmatch
    unfold guessMatchSpec
    have hok : guessPhraseOp g cp.id guess = .ok { g with
        players := g.players.set g.currentPlayerIndex { cp with score := cp.score + 100 },
        phase := .gameOver, winner := some cp.id } := by
      unfold guessPhraseOp
      rw [hcur]
      dsimp only
      rw [if_neg (by simp : ¬cp.id ≠ cp.id), if_pos hmatch]
    exact ⟨_, hok, rfl, rfl, _, getElem?_set_self hlt, rfl⟩
  · intro hmis
    unfold guessMismatchSpec
    unfold guessPhraseOp
    rw [hcur]
    dsimp only
    rw [if_neg (by simp : ¬cp.id ≠ cp.id), if_neg hmis]
    set cp' : Player := ({ cp with isAlive := false } : Player) with hcp'
    set ps' := g.players.set g.currentPlayerIndex cp' with hps'
    have hplayer : ∃ p', ps'[g.currentPlayerIndex]? = some p'
        ∧ p'.isAlive = false ∧ p'.lives = cp.lives ∧ p'.score = cp.score :=
      ⟨cp', by rw [hps']; exact getElem?_set_self hlt, rfl, rfl, rfl⟩
    have hne : ps' ≠ [] := by
      rw [hps']
      intro hnil
      have hlen := List.length_set g.players g.currentPlayerIndex cp'
      rw [hnil] at hlen
      simp at hlen
      omega
    by_cases h0 : (ps'.filter (·.isAlive)).length = 0
    · rw [if_pos h0]
      obtain ⟨b, hb, hbmem, hbound⟩ := maxScoreFirst_spec hne
      refine ⟨_, rfl, hplayer, ?_, ?_, ?_⟩
      · intro _
        exact ⟨rfl, b, hbmem, by dsimp only; rw [hb]; rfl, hbound⟩
      · intro hh
        unfold aliveCount at hh
        dsimp only at hh
        omega
      · intro hh
        unfold aliveCount at hh
        dsimp only at hh
        omega
    · rw [if_neg h0]
      by_cases h1 : (ps'.filter (·.isAlive)).length = 1
      · rw [if_pos h1]
        obtain ⟨a, ha⟩ := List.length_eq_one.mp h1
        have hamem : a ∈ ps' ∧ a.isAlive = true := by
          have hmem : a ∈ ps'.filter (·.isAlive) := by
            rw [ha]
            exact List.mem_singleton_self a
          exact List.mem_filter.mp hmem
        refine ⟨_, rfl, hplayer, ?_, ?_, ?_⟩
        · intro hh
          unfold aliveCount at hh
          dsimp only at hh
          omega
        · intro _
          refine ⟨rfl, a, hamem.1, ?_, hamem.2⟩
          dsimp only
          rw [ha]
          rfl
        · intro hh
          unfold aliveCount at hh
          dsimp only at hh
          omega
      · rw [if_neg h1]
        refine ⟨_, rfl, hplayer, ?_, ?_, ?_⟩
        · intro hh
          unfold aliveCount at hh
          dsimp only at hh
          omega
        · intro hh
          unfold aliveCount at hh
          dsimp only at hh
          omega
        · intro _
          exact ⟨rfl, rfl⟩

/-- C4 witness: in the `letter-selection` example game, a correct guess by B
wins with +100; a wrong guess eliminates B. -/
theorem C4_guess_phrase_witness :
    (strTrim (upperStr "beware of the dragon ") = upperStr gEx9.puzzle.phrase
      → guessMatchSpec gEx9 pB "pB" "beware of the dragon ")
    ∧ (strTrim (upperStr "beware of the dragon ") ≠ upperStr gEx9.puzzle.phrase
      → guessMismatchSpec gEx9 pB "pB" "beware of the dragon ") :=
  C4_guess_phrase gEx9 "pB" "beware of the dragon " pB rfl rfl rfl

/-- C9: a wrong full-phrase guess flips only the guesser's `isAlive` flag to
false; every other field of the player record — in particular `lives` — is
left unchanged, so an eliminated guesser can still hold positive lives. -/
theorem C9_wrong_guess_frame (g : GameState) (pid guess : String) (cp : Player)
    (hcur : g.players[g.currentPlayerIndex]? = some cp)
    (hid : cp.id = pid)
    (hmis : strTrim (upperStr guess) ≠ upperStr g.puzzle.phrase) :
    ∃ g', guessPhraseOp g pid guess = .ok g'
      ∧ g'.players[g.currentPlayerIndex]? = some { cp with isAlive := false } := by
  subst hid
  have hlt : g.currentPlayerIndex < g.players.length :=
    (List.getElem?_eq_some.mp hcur).1
  unfold guessPhraseOp
  rw [hcur]
  dsimp only
  rw [if_neg (by simp : ¬cp.id ≠ cp.id), if_neg hmis]
  have hp : (g.players.set g.currentPlayerIndex
      ({ cp with isAlive := false } : Player))[g.currentPlayerIndex]?
      = some ({ cp with isAlive := false } : Player) := getElem?_set_self hlt
  split
  · exact ⟨_, rfl, hp⟩
  · split
    · exact ⟨_, rfl, hp⟩
    · exact ⟨_, rfl, hp⟩

/-- C9 witness: B guesses wrong with 3 lives and is eliminated with its
lives still at 3. -/
theorem C9_wrong_guess_frame_witness :
    (∃ g', guessPhraseOp gEx9 "pB" "WRONG" = .ok g'
      ∧ g'.players[gEx9.currentPlayerIndex]? = some { pB with isAlive := false })
    ∧ Player.lives { pB with isAlive := false } = 3
    ∧ Player.isAlive { pB with isAlive := false } = false :=
  ⟨C9_wrong_guess_frame gEx9 "pB" "WRONG" pB rfl rfl (by decide), rfl, rfl⟩

/-- C10: `joinGame` and `addBot` succeed only in the lobby — outside it both
reject with "Game already started" and the stored state is untouched; and in
the lobby `addBot` rejects, mutating nothing, once every curated bot name is
in use. -/
theorem C10_lobby_only (g : GameState) (playerName npid : String) (r : Nat) :
    (g.phase ≠ Phase.lobby →
      joinOp g playerName npid = .error GameErr.gameAlreadyStarted
      ∧ addBotOp g npid r = .error GameErr.gameAlreadyStarted
      ∧ afterOp g (joinOp g playerName npid) = g
      ∧ afterOp g (addBotOp g npid r) = g)
    ∧ (g.phase = Phase.lobby →
      (∀ n ∈ botNames, n ∈ g.players.map (·.name)) →
      addBotOp g npid r = .error GameErr.noBotNames
      ∧ afterOp g (addBotOp g npid r) = g) := by
  constructor
  · intro h
    have hj : joinOp g playerName npid = .error GameErr.gameAlreadyStarted := by
      unfold joinOp
      rw [if_pos h]
    have hb : addBotOp g npid r = .error GameErr.gameAlreadyStarted := by
      unfold addBotOp
      rw [if_pos h]
    exact ⟨hj, hb, by rw [hj]; rfl, by rw [hb]; rfl⟩
  · intro hl hall
    have hfilter : botNames.filter (fun n => !(g.players.map (·.name)).contains n) = [] := by
      rw [List.filter_eq_nil]
      intro n hn
      simp only [Bool.not_eq_true', Bool.not_eq_false]
      exact List.elem_eq_true_of_mem (hall n hn)
    have hb : addBotOp g npid r = .error GameErr.noBotNames := by
      unfold addBotOp
      rw [if_neg (by simp [hl])]
      dsimp only
      rw [if_pos (by rw [hfilter]; rfl)]
    exact ⟨hb, by rw [hb]; rfl⟩

/-- C10 witness: joining or adding a bot to the started example game fails;
adding a bot to the all-names-taken lobby fails. -/
theorem C10_lobby_only_witness :
    (joinOp gEx "Zoe" "p9" = .error GameErr.gameAlreadyStarted
      ∧ addBotOp gEx "p9" 0 = .error GameErr.gameAlreadyStarted
      ∧ afterOp gEx (joinOp gEx "Zoe" "p9") = gEx
      ∧ afterOp gEx (addBotOp gEx "p9" 0) = gEx)
    ∧ (addBotOp gFull "p9" 0 = .error GameErr.noBotNames
      ∧ afterOp gFull (addBotOp gFull "p9" 0) = gFull) :=
  ⟨(C10_lobby_only gEx "Zoe" "p9" 0).1 (by decide),
   (C10_lobby_only gFull "Zoe" "p9" 0).2 rfl (by decide)⟩

/-- C3: picking a letter already recorded in the ordered guessed-letters log
(hit or miss) is rejected with the duplicate-guess error and mutates nothing:
no score change, no change to `revealedLetters`, no turn advancement. -/
theorem C3_duplicate_letter (g : GameState) (pid : String) (letter : Char)
    (ns : String) (cp : Player)
    (hphase : g.phase = Phase.letterSelection)
    (hcur : g.players[g.currentPlayerIndex]? = some cp)
    (hid : cp.id = pid)
    (hdup : g.selectedLetters.contains (upperC letter) = true) :
    pickLetterOp g pid letter ns = .error GameErr.duplicateGuess
    ∧ afterOp g (pickLetterOp g pid letter ns) = g := by
  subst hid
  have h : pickLetterOp g cp.id letter ns = .error GameErr.duplicateGuess := by
    unfold pickLetterOp
    rw [hcur]
    dsimp only
    rw [if_neg (by simp : ¬cp.id ≠ cp.id)]
    rw [if_pos hdup]
  refine ⟨h, ?_⟩
  rw [h]
  rfl

/-- C3 witness: guessing E again in the example game where E is logged. -/
theorem C3_duplicate_letter_witness :
    pickLetterOp gDup "pB" 'e' "next" = .error GameErr.duplicateGuess
    ∧ afterOp gDup (pickLetterOp gDup "pB" 'e' "next") = gDup :=
  C3_duplicate_letter gDup "pB" 'e' "next" pB rfl rfl rfl (by decide)

/-- C5: a fresh letter that occurs in the phrase is added to
`revealedLetters`, the score grows by exactly 5 per occurrence of the
(uppercased) letter in the phrase, and when every distinct phrase letter is
then revealed the player additionally gains 100, becomes winner, and the
phase moves to `game-over`. -/
theorem C5_pick_letter_hit (g : GameState) (pid : String) (letter : Char)
    (ns : String) (cp : Player)
    (hphase : g.phase = Phase.letterSelection)
    (hcur : g.players[g.currentPlayerIndex]? = some cp)
    (hid : cp.id = pid)
    (hnew : g.selectedLetters.contains (upperC letter) = false)
    (hin : (upperStr g.puzzle.phrase).data.contains (upperC letter) = true) :
    pickLetterHitSpec g cp pid letter ns := by
  subst hid
  have hlt : g.currentPlayerIndex < g.players.length :=
    (List.getElem?_eq_some.mp hcur).1
  unfold pickLetterHitSpec
  unfold pickLetterOp
  rw [hcur]
  dsimp only
  rw [if_neg (by simp : ¬cp.id ≠ cp.id)]
  rw [if_neg (by intro hc; rw [hnew] at hc; cases hc)]
  rw [if_pos hin]
  by_cases hall : (puzzleLetters g.puzzle.phrase).all
      (fun c => (insertChar g.puzzle.revealedLetters (upperC letter)).contains c) = true
  · rw [if_pos hall]
    refine ⟨_, rfl, insertChar_contains_self _ _, _, getElem?_set_self hlt, ?_, ?_⟩
    · intro _
      exact ⟨rfl, rfl, rfl⟩
    · intro hfalse
      rw [hall] at hfalse
      cases hfalse
  · rw [if_neg hall]
    refine ⟨_, rfl, ?_,
      ({ cp with score := cp.score + 5 * (g.puzzle.phrase.data.count (upperC letter) : Int) } : Player),
      ?_, ?_, ?_⟩
    · rw [moveToNextPlayer_puzzle]
      exact insertChar_contains_self _ _
    · rw [moveToNextPlayer_players]
      exact getElem?_set_self hlt
    · intro htrue
      exact absurd htrue hall
    · intro _
      rfl

/-- C5 witness: in the example game, B guesses the letter e; E occurs three
times in "BEWARE OF THE DRAGON", so B scores 15 and the game continues. -/
theorem C5_pick_letter_hit_witness :
    pickLetterHitSpec gEx9 pB "pB" 'e' "next scenario" :=
  C5_pick_letter_hit gEx9 "pB" 'e' "next scenario" pB rfl rfl rfl (by decide) (by decide)

theorem aliveAt_cons_zero (p : Player) (rest : List Player) :
    aliveAt (p :: rest) 0 = p.isAlive := by
  unfold aliveAt
  rw [List.getElem?_cons_zero]

theorem aliveAt_cons_succ (p : Player) (rest : List Player) (n : Nat) :
    aliveAt (p :: rest) (n + 1) = aliveAt rest n := by
  unfold aliveAt
  rw [List.getElem?_cons_succ]

theorem exists_alive_of_filter_pos (ps : List Player) :
    0 < aliveCount ps → ∃ j, j < ps.length ∧ aliveAt ps j = true := by
  unfold aliveCount
  induction ps with
  | nil =>
    intro h
    simp at h
  | cons p rest ih =>
    intro h
    cases hp : p.isAlive with
    | true =>
      refine ⟨0, Nat.succ_pos _, ?_⟩
      rw [aliveAt_cons_zero, hp]
    | false =>
      rw [List.filter_cons, if_neg (by rw [hp]; exact Bool.false_ne_true)] at h
      obtain ⟨j, hj, hja⟩ := ih h
      refine ⟨j + 1, Nat.succ_lt_succ hj, ?_⟩
      rw [aliveAt_cons_succ]
      exact hja

theorem two_alive_indices (ps : List Player) :
    2 ≤ aliveCount ps →
    ∃ i j, i < j ∧ j < ps.length ∧ aliveAt ps i = true ∧ aliveAt ps j = true := by
  unfold aliveCount
  induction ps with
  | nil =>
    intro h
    simp at h
  | cons p rest ih =>
    intro h
    cases hp : p.isAlive with
    | true =>
      rw [List.filter_cons, if_pos (by rw [hp] : p.isAlive = true)] at h
      rw [List.length_cons] at h
      obtain ⟨j, hj, hja⟩ := exists_alive_of_filter_pos rest (by unfold aliveCount; omega)
      refine ⟨0, j + 1, Nat.succ_pos _, Nat.succ_lt_succ hj, ?_, ?_⟩
      · rw [aliveAt_cons_zero, hp]
      · rw [aliveAt_cons_succ]
        exact hja
    | false =>
      rw [List.filter_cons, if_neg (by rw [hp]; exact Bool.false_ne_true)] at h
      obtain ⟨i, j, hij, hj, hi, hja⟩ := ih h
      refine ⟨i + 1, j + 1, Nat.succ_lt_succ hij, Nat.succ_lt_succ hj, ?_, ?_⟩
      · rw [aliveAt_cons_succ]
        exact hi
      · rw [aliveAt_cons_succ]
        exact hja

/-- With at least two alive players there is an alive index different from
any given index. -/
theorem alive_other_index (ps : List Player) (c : Nat)
    (h : 2 ≤ aliveCount ps) :
    ∃ i, i < ps.length ∧ i ≠ c ∧ aliveAt ps i = true := by
  obtain ⟨i, j, hij, hj, hi, hja⟩ := two_alive_indices ps h
  by_cases hic : i = c
  · exact ⟨j, hj, by omega, hja⟩
  · exact ⟨i, by omega, hic, hi⟩

/-- The fuelled circular scan: if an alive entry occurs within `fuel` steps,
the scan stops at the first one. -/
theorem findAliveAux_spec (ps : List Player) (fuel : Nat) :
    ∀ s, s < ps.length →
    (∃ j, j < fuel ∧ aliveAt ps ((s + j) % ps.length) = true) →
    aliveAt ps (findAliveAux ps fuel s) = true
    ∧ ∃ j, j < fuel ∧ findAliveAux ps fuel s = (s + j) % ps.length
        ∧ ∀ j', j' < j → aliveAt ps ((s + j') % ps.length) = false := by
  induction fuel with
  | zero =>
    intro s _ hex
    obtain ⟨j, hj, _⟩ := hex
    omega
  | succ fuel ih =>
    intro s hs hex
    unfold findAliveAux
    by_cases halive : aliveAt ps s = true
    · rw [if_pos halive]
      refine ⟨halive, 0, Nat.succ_pos _, ?_, ?_⟩
      · rw [Nat.add_zero, Nat.mod_eq_of_lt hs]
      · intro j' hj'
        omega
    · rw [if_neg halive]
      have hdead : aliveAt ps s = false := by
        cases hb : aliveAt ps s
        · rfl
        · exact absurd hb halive
      have hs' : (s + 1) % ps.length < ps.length := Nat.mod_lt _ (by omega)
      have hex' : ∃ j, j < fuel
          ∧ aliveAt ps (((s + 1) % ps.length + j) % ps.length) = true := by
        obtain ⟨j, hj, hja⟩ := hex
        match j, hj with
        | 0, _ =>
          rw [Nat.add_zero, Nat.mod_eq_of_lt hs] at hja
          exact absurd hja halive
        | k + 1, hk =>
          refine ⟨k, by omega, ?_⟩
          rw [Nat.mod_add_mod]
          have harith : s + 1 + k = s + (k + 1) := by omega
          rw [harith]
          exact hja
      obtain ⟨hres, j₀, hj₀, heq, hmin⟩ := ih ((s + 1) % ps.length) hs' hex'
      refine ⟨hres, j₀ + 1, by omega, ?_, ?_⟩
      · rw [heq, Nat.mod_add_mod]
        congr 1
        omega
      · intro j' hj'
        match j' with
        | 0 =>
          rw [Nat.add_zero, Nat.mod_eq_of_lt hs]
          exact hdead
        | k + 1 =>
          have hk : k < j₀ := by omega
          have hd := hmin k hk
          rw [Nat.mod_add_mod] at hd
          have harith : s + 1 + k = s + (k + 1) := by omega
          rw [harith] at hd
          exact hd

/-- C7: with at least two alive players, the shared turn-advancement
subroutine moves `currentPlayerIndex` to an index that is alive and different
from the prior one. -/
theorem C7_turn_rotation (g : GameState) (ns : String)
    (h2 : 2 ≤ aliveCount g.players)
    (hidx : g.currentPlayerIndex < g.players.length) :
    (moveToNextPlayer g ns).currentPlayerIndex ≠ g.currentPlayerIndex
    ∧ aliveAt (moveToNextPlayer g ns).players
        (moveToNextPlayer g ns).currentPlayerIndex = true
    ∧ (moveToNextPlayer g ns).players = g.players := by
  have h2' := h2
  unfold aliveCount at h2'
  have hlen : 0 < g.players.length := by omega
  have hmv : moveToNextPlayer g ns = { g with
      currentPlayerIndex :=
        nextAliveIdx g.players ((g.currentPlayerIndex + 1) % g.players.length),
      phase := .playing,
      roundNumber := g.roundNumber + 1,
      scenarioHistory := pushCap5 g.scenarioHistory g.currentScenario,
      currentScenario := ns } := by
    unfold moveToNextPlayer
    rw [if_neg (by omega), if_neg (by omega)]
  rw [hmv]
  dsimp only
  have hstart : (g.currentPlayerIndex + 1) % g.players.length < g.players.length :=
    Nat.mod_lt _ hlen
  obtain ⟨i, hi, hic, hia⟩ := alive_other_index g.players g.currentPlayerIndex h2
  have hjieq : ((g.currentPlayerIndex + 1) % g.players.length
      + (i + g.players.length - (g.currentPlayerIndex + 1) % g.players.length)
          % g.players.length) % g.players.length = i := by
    rw [Nat.add_mod_mod]
    have harith : (g.currentPlayerIndex + 1) % g.players.length
        + (i + g.players.length - (g.currentPlayerIndex + 1) % g.players.length)
        = i + g.players.length := by omega
    rw [harith, Nat.add_mod_right]
    exact Nat.mod_eq_of_lt hi
  have hex : ∃ j, j < g.players.length
      ∧ aliveAt g.players
          (((g.currentPlayerIndex + 1) % g.players.length + j) % g.players.length) = true :=
    ⟨_, Nat.mod_lt _ hlen, by rw [hjieq]; exact hia⟩
  obtain ⟨hres, j₀, hj₀, heq, hmin⟩ :=
    findAliveAux_spec g.players g.players.length
      ((g.currentPlayerIndex + 1) % g.players.length) hstart hex
  refine ⟨?_, ?_, rfl⟩
  · unfold nextAliveIdx
    intro hcontra
    rw [heq] at hcontra
    rw [Nat.mod_add_mod] at hcontra
    have hdvd : g.players.length ∣ (1 + j₀) := by
      have hmodeq : g.currentPlayerIndex % g.players.length
          = (g.currentPlayerIndex + (1 + j₀)) % g.players.length := by
        rw [Nat.mod_eq_of_lt hidx]
        have harith : g.currentPlayerIndex + (1 + j₀)
            = g.currentPlayerIndex + 1 + j₀ := by omega
        rw [harith, hcontra]
      have hd := (Nat.modEq_iff_dvd' (by omega)).mp hmodeq
      rwa [Nat.add_sub_cancel_left] at hd
    have hfull : 1 + j₀ = g.players.length :=
      Nat.le_antisymm (by omega) (Nat.le_of_dvd (by omega) hdvd)
    have hji_lt : (i + g.players.length
        - (g.currentPlayerIndex + 1) % g.players.length) % g.players.length < j₀ := by
      have hji_len : (i + g.players.length
          - (g.currentPlayerIndex + 1) % g.players.length) % g.players.length
          < g.players.length := Nat.mod_lt _ hlen
      have hji_ne : (i + g.players.length
          - (g.currentPlayerIndex + 1) % g.players.length) % g.players.length
          ≠ g.players.length - 1 := by
        intro hlast
        apply hic
        rw [hlast] at hjieq
        rw [Nat.mod_add_mod] at hjieq
        have harith : g.currentPlayerIndex + 1 + (g.players.length - 1)
            = g.currentPlayerIndex + g.players.length := by omega
        rw [harith, Nat.add_mod_right, Nat.mod_eq_of_lt hidx] at hjieq
        omega
      omega
    have hdd := hmin _ hji_lt
    rw [hjieq] at hdd
    rw [hia] at hdd
    cases hdd
  · exact hres

/-- C7 witness: in the two-player example game the turn moves from index 0 to
the alive player at index 1. -/
theorem C7_turn_rotation_witness :
    (moveToNextPlayer gEx "next").currentPlayerIndex ≠ gEx.currentPlayerIndex
    ∧ aliveAt (moveToNextPlayer gEx "next").players
        (moveToNextPlayer gEx "next").currentPlayerIndex = true
    ∧ (moveToNextPlayer gEx "next").players = gEx.players :=
  C7_turn_rotation gEx "next" (by decide) (by decide)

theorem afterOp_ok (g g' : GameState) : afterOp g (.ok g') = g' := rfl

theorem playersMonotone_refl (ps : List Player) : playersMonotone ps ps :=
  fun _ p h => ⟨p, h, le_refl _, fun hf => hf⟩

theorem playersMonotone_set {ps : List Player} {idx : Nat} {q q' : Player}
    (hq : ps[idx]? = some q)
    (hlives : q'.lives ≤ q.lives)
    (hdead : q.isAlive = false → q'.isAlive = false) :
    playersMonotone ps (ps.set idx q') := by
  intro i p hip
  by_cases hii : idx = i
  · subst hii
    rw [hq] at hip
    cases hip
    exact ⟨q', getElem?_set_self (List.getElem?_eq_some.mp hq).1, hlives, hdead⟩
  · exact ⟨p, by rw [getElem?_set_ne hii]; exact hip, le_refl _, fun hf => hf⟩

theorem playersMonotone_append (ps new : List Player) :
    playersMonotone ps (ps ++ new) := by
  intro i p hip
  refine ⟨p, ?_, le_refl _, fun hf => hf⟩
  rw [List.getElem?_append, if_pos (List.getElem?_eq_some.mp hip).1]
  exact hip

theorem submitAction_monotone (g : GameState) (pid : String) (s : Bool) :
    playersMonotone g.players (afterOp g (submitAction g pid s)).players := by
  unfold submitAction
  cases hm : g.players[g.currentPlayerIndex]? with
  | none => exact playersMonotone_refl _
  | some cp =>
    dsimp only
    by_cases hid : cp.id ≠ pid
    · rw [if_pos hid]
      exact playersMonotone_refl _
    · rw [if_neg hid]
      by_cases hs : s = true
      · rw [if_pos hs]
        exact playersMonotone_set hm (le_refl _) (fun hf => hf)
      · rw [if_neg hs]
        have hset : playersMonotone g.players
            (g.players.set g.currentPlayerIndex
              { cp with lives := cp.lives - 1,
                        isAlive := (if cp.lives - 1 ≤ 0 then false else cp.isAlive) }) :=
          playersMonotone_set hm (by dsimp only; omega)
            (fun hf => by dsimp only; split <;> [rfl; exact hf])
        by_cases h0 : ((g.players.set g.currentPlayerIndex
            { cp with lives := cp.lives - 1,
                      isAlive := (if cp.lives - 1 ≤ 0 then false else cp.isAlive) }).filter
              (·.isAlive)).length = 0
        · rw [if_pos h0, afterOp_ok]
          exact hset
        · rw [if_neg h0]
          by_cases h1 : ((g.players.set g.currentPlayerIndex
              { cp with lives := cp.lives - 1,
                        isAlive := (if cp.lives - 1 ≤ 0 then false else cp.isAlive) }).filter
                (·.isAlive)).length = 1
          · rw [if_pos h1, afterOp_ok]
            exact hset
          · rw [if_neg h1, afterOp_ok]
            exact hset

theorem botActionOp_monotone (g : GameState) (s : Bool) :
    playersMonotone g.players (afterOp g (botActionOp g s)).players := by
  unfold botActionOp
  cases hm : g.players[g.currentPlayerIndex]? with
  | none => exact playersMonotone_refl _
  | some cp =>
    dsimp only
    by_cases hbot : ¬cp.isBot = true
    · rw [if_pos hbot]
      exact playersMonotone_refl _
    · rw [if_neg hbot]
      by_cases hs : s = true
      · rw [if_pos hs]
        exact playersMonotone_set hm (le_refl _) (fun hf => hf)
      · rw [if_neg hs]
        exact playersMonotone_set hm (by dsimp only; omega)
          (fun hf => by dsimp only; split <;> [rfl; exact hf])

theorem pickLetterOp_monotone (g : GameState) (pid : String) (letter : Char)
    (ns : String) :
    playersMonotone g.players (afterOp g (pickLetterOp g pid letter ns)).players := by
  unfold pickLetterOp
  cases hm : g.players[g.currentPlayerIndex]? with
  | none => exact playersMonotone_refl _
  | some cp =>
    dsimp only
    by_cases hid : cp.id ≠ pid
    · rw [if_pos hid]
      exact playersMonotone_refl _
    · rw [if_neg hid]
      by_cases hdup : g.selectedLetters.contains (upperC letter) = true
      · rw [if_pos hdup]
        exact playersMonotone_refl _
      · rw [if_neg hdup]
        by_cases hin : (upperStr g.puzzle.phrase).data.contains (upperC letter) = true
        · rw [if_pos hin]
          by_cases hall : (puzzleLetters g.puzzle.phrase).all
              (fun c => (insertChar g.puzzle.revealedLetters (upperC letter)).contains c) = true
          · rw [if_pos hall, afterOp_ok]
            exact playersMonotone_set hm (by dsimp only; omega) (fun hf => hf)
          · rw [if_neg hall, afterOp_ok]
            rw [moveToNextPlayer_players]
            exact playersMonotone_set hm (by dsimp only; omega) (fun hf => hf)
        · rw [if_neg hin, afterOp_ok]
          rw [moveToNextPlayer_players]
          exact playersMonotone_refl _

theorem guessPhraseOp_monotone (g : GameState) (pid guess : String) :
    playersMonotone g.players (afterOp g (guessPhraseOp g pid guess)).players := by
  unfold guessPhraseOp
  cases hm : g.players[g.currentPlayerIndex]? with
  | none => exact playersMonotone_refl _
  | some cp =>
    dsimp only
    by_cases hid : cp.id ≠ pid
    · rw [if_pos hid]
      exact playersMonotone_refl _
    · rw [if_neg hid]
      by_cases hmatch : strTrim (upperStr guess) = upperStr g.puzzle.phrase
      · rw [if_pos hmatch]
        exact playersMonotone_set hm (le_refl _) (fun hf => hf)
      · rw [if_neg hmatch]
        have hset : playersMonotone g.players
            (g.players.set g.currentPlayerIndex { cp with isAlive := false }) :=
          playersMonotone_set hm (le_refl _) (fun _ => rfl)
        by_cases h0 : ((g.players.set g.currentPlayerIndex
            { cp with isAlive := false }).filter (·.isAlive)).length = 0
        · rw [if_pos h0, afterOp_ok]
          exact hset
        · rw [if_neg h0]
          by_cases h1 : ((g.players.set g.currentPlayerIndex
              { cp with isAlive := false }).filter (·.isAlive)).length = 1
          · rw [if_pos h1, afterOp_ok]
            exact hset
          · rw [if_neg h1, afterOp_ok]
            exact hset

theorem continueOp_monotone (g : GameState) (ns : String) :
    playersMonotone g.players (continueOp g ns).players := by
  show playersMonotone g.players (moveToNextPlayer g ns).players
  rw [moveToNextPlayer_players]
  exact playersMonotone_refl _

theorem joinOp_monotone (g : GameState) (playerName npid : String) :
    playersMonotone g.players (afterOp g (joinOp g playerName npid)).players := by
  unfold joinOp
  split
  · exact playersMonotone_refl _
  · exact playersMonotone_append _ _

theorem addBotOp_monotone (g : GameState) (npid : String) (r : Nat) :
    playersMonotone g.players (afterOp g (addBotOp g npid r)).players := by
  unfold addBotOp
  split
  · exact playersMonotone_refl _
  · dsimp only
    split
    · exact playersMonotone_refl _
    · exact playersMonotone_append _ _

/-- C8: across every operation — act, pickLetter, guessPhrase, continue,
bot-act, join, add-bot — no existing player's `lives` value ever increases
and no player's `isAlive` flag ever flips from false back to true in the
stored state. -/
theorem C8_elimination_monotonicity :
    (∀ (g : GameState) (pid : String) (s : Bool),
      playersMonotone g.players (afterOp g (submitAction g pid s)).players)
    ∧ (∀ (g : GameState) (pid : String) (letter : Char) (ns : String),
      playersMonotone g.players (afterOp g (pickLetterOp g pid letter ns)).players)
    ∧ (∀ (g : GameState) (pid guess : String),
      playersMonotone g.players (afterOp g (guessPhraseOp g pid guess)).players)
    ∧ (∀ (g : GameState) (ns : String),
      playersMonotone g.players (continueOp g ns).players)
    ∧ (∀ (g : GameState) (s : Bool),
      playersMonotone g.players (afterOp g (botActionOp g s)).players)
    ∧ (∀ (g : GameState) (playerName npid : String),
      playersMonotone g.players (afterOp g (joinOp g playerName npid)).players)
    ∧ (∀ (g : GameState) (npid : String) (r : Nat),
      playersMonotone g.players (afterOp g (addBotOp g npid r)).players) :=
  ⟨submitAction_monotone, pickLetterOp_monotone, guessPhraseOp_monotone,
   continueOp_monotone, botActionOp_monotone, joinOp_monotone, addBotOp_monotone⟩

/-- C8 witness: after A's failed action in the example game, the player stored
at index 0 has no more lives than before and would stay dead if dead. -/
theorem C8_elimination_monotonicity_witness :
    ∃ p', (afterOp gEx (submitAction gEx "pA" false)).players[0]? = some p'
      ∧ p'.lives ≤ pA.lives ∧ (pA.isAlive = false → p'.isAlive = false) :=
  C8_elimination_monotonicity.1 gEx "pA" false 0 pA rfl

end Fatebound
